import Mathlib

/-!
# Shallow embedding of the DeepZoom template-matcher core

This file embeds the matching pipeline of `src/python-matcher/app.py` in Lean 4
and proves/refutes the frozen specification claims about it.

Modelling conventions:

* Python floats are modelled as exact rationals (`ℚ`).  Python 3's `round`
  (also OpenCV's `cvRound`, used by `cv2.resize` for fractional target sizes)
  rounds half to even; `pyRound` reproduces that on exact rationals.
* The numeric *content* of pixel arrays is irrelevant to the control flow and
  geometry of the pipeline: grayscale conversion, the preprocessing modes and
  `cv2.matchTemplate` only feed the per-cell correlation values.  Those values
  are abstracted as an environment function `CorrEnv.corr` (indexed by the
  scale index, rotation index and cell position); the spec bounds them to
  [-1,1] but no claim below needs that bound.  The canvas size computed by
  `rotate_template` for a nonzero angle involves trigonometry of the angle and
  is likewise abstracted as `CorrEnv.rotDims` (a zero rotation is the identity,
  exactly as in the source).  Array shapes — which drive every branch the
  claims are about — are tracked exactly.
* `time.perf_counter()` is modelled as an abstract clock stream `ℕ → ℚ`; the
  j-th executed pass consumes readings `2*j` and `2*j+1`.
-/

namespace App

/-- Constant `MAX_GLOBAL_SEARCH_DIMENSION` from app.py. -/
def MAX_GLOBAL_SEARCH_DIMENSION : ℕ := 1600

/-- Constant `MIN_TEMPLATE_DIMENSION` from app.py. -/
def MIN_TEMPLATE_DIMENSION : ℕ := 5

/-- Constant `MAX_PASS_HITS_MULTIPLIER` from app.py. -/
def MAX_PASS_HITS_MULTIPLIER : ℕ := 6

/-- Function `clamp(value, min_value, max_value) = max(min_value, min(max_value, value))` from app.py. -/
def clamp (value minValue maxValue : ℚ) : ℚ :=
  max minValue (min maxValue value)

/-- Python 3 `round` / OpenCV `cvRound` on an exact rational:
nearest integer, ties to even. -/
def pyRound (q : ℚ) : ℤ :=
  if q - ⌊q⌋ < 1/2 then ⌊q⌋
  else if 1/2 < q - ⌊q⌋ then ⌊q⌋ + 1
  else if ⌊q⌋ % 2 = 0 then ⌊q⌋ else ⌊q⌋ + 1

/-- The `Selection` model: a normalized rectangle (pydantic model in app.py). -/
structure Selection where
  x : ℚ
  y : ℚ
  width : ℚ
  height : ℚ
deriving DecidableEq

/-- Function `normalized_to_pixels(box, width, height)` from app.py, returning
`(left, top, right, bottom)`. -/
def normalized_to_pixels (box : Selection) (width height : ℕ) : ℤ × ℤ × ℤ × ℤ :=
  let x := clamp box.x 0 1
  let y := clamp box.y 0 1
  let w := clamp box.width 0.0001 (1 - x)
  let h := clamp box.height 0.0001 (1 - y)
  (pyRound (x * width), pyRound (y * height),
   pyRound ((x + w) * width), pyRound ((y + h) * height))

/-- Function `expand_box(box, padding)` from app.py. -/
def expand_box (box : Selection) (padding : ℚ) : Selection :=
  if padding ≤ 0 then box
  else
    let pad_w := box.width * padding
    let pad_h := box.height * padding
    let x := clamp (box.x - pad_w) 0 1
    let y := clamp (box.y - pad_h) 0 1
    let right := clamp (box.x + box.width + pad_w) 0 1
    let bottom := clamp (box.y + box.height + pad_h) 0 1
    ⟨x, y, right - x, bottom - y⟩

/-- Result of `maybe_downscale_search`: the shapes of the (possibly resized)
search and template patches together with the effective scale factor.  The
pixel contents produced by `cv2.resize` are abstracted away; the output
shapes are computed exactly as OpenCV does from the requested sizes. -/
structure Downscale where
  searchH : ℕ
  searchW : ℕ
  tplH : ℕ
  tplW : ℕ
  factor : ℚ
deriving DecidableEq

/-- Function `maybe_downscale_search(search_patch, template_patch)` from app.py,
on patch shapes (`searchH × searchW` search, `tplH × tplW` template). -/
def maybe_downscale_search (searchH searchW tplH tplW : ℕ) : Downscale :=
  let maxDim := max searchH searchW
  if maxDim ≤ MAX_GLOBAL_SEARCH_DIMENSION then ⟨searchH, searchW, tplH, tplW, 1⟩
  else
    let scale0 : ℚ := (MAX_GLOBAL_SEARCH_DIMENSION : ℚ) / (maxDim : ℚ)
    let tmd : ℕ := max 1 (min tplH tplW)
    let minAllowed : ℚ := max ((MIN_TEMPLATE_DIMENSION : ℚ) / (tmd : ℚ)) (1/20)
    let sf := min (max scale0 minAllowed) 1
    if 999/1000 ≤ sf then ⟨searchH, searchW, tplH, tplW, 1⟩
    else
      ⟨max 8 (pyRound ((searchH : ℚ) * sf)).toNat,
       max 8 (pyRound ((searchW : ℚ) * sf)).toNat,
       max MIN_TEMPLATE_DIMENSION (pyRound ((tplH : ℚ) * sf)).toNat,
       max MIN_TEMPLATE_DIMENSION (pyRound ((tplW : ℚ) * sf)).toNat,
       sf⟩

/-- A candidate record (the per-hit dict built inside `match_selection`). -/
structure Cand where
  x : ℚ
  y : ℚ
  width : ℚ
  height : ℚ
  score : ℚ
  pass : String
deriving DecidableEq

/-- Function `intersection_over_union(a, b)` from app.py. -/
def intersection_over_union (a b : Cand) : ℚ :=
  let x1 := max a.x b.x
  let y1 := max a.y b.y
  let x2 := min (a.x + a.width) (b.x + b.width)
  let y2 := min (a.y + a.height) (b.y + b.height)
  let inter := max 0 (x2 - x1) * max 0 (y2 - y1)
  if inter ≤ 0 then 0
  else
    let union := a.width * a.height + b.width * b.height - inter
    if 0 < union then inter / union else 0

/-- The descending-score comparison used by `sorted(..., key=score, reverse=True)`.
Python's sort is stable; `List.mergeSort` with this relation models it exactly. -/
def scoreDescLe (a b : Cand) : Bool := decide (b.score ≤ a.score)

/-- The greedy picking loop of `non_max_suppression`: take the best remaining
box, drop every remaining box overlapping it beyond the threshold, stop when
`max_detections` boxes have been picked. -/
def nmsGo (thr : ℚ) : ℕ → List Cand → List Cand
  | 0, _ => []
  | _ + 1, [] => []
  | n + 1, c :: rest =>
    c :: nmsGo thr n (rest.filter fun cand => decide (intersection_over_union cand c ≤ thr))

/-- Function `non_max_suppression(boxes, iou_threshold, max_detections)` from app.py. -/
def non_max_suppression (boxes : List Cand) (iou_threshold : ℚ) (max_detections : ℕ) :
    List Cand :=
  nmsGo iou_threshold max_detections (boxes.mergeSort scoreDescLe)

/-- The `MatchOptions` pydantic model (field defaults as in app.py). -/
structure MatchOptions where
  mode : String := "auto"
  min_similarity : ℚ := 0.6
  max_matches : ℕ := 80
  nms_iou : ℚ := 0.35
  scales : Option (List ℚ) := none
  rotations : Option (List ℚ) := none
  search_padding : Option ℚ := none
  label : Option String := none
deriving DecidableEq

/-- Resolution of `options.scales or [0.65, 0.85, 1.0, 1.2, 1.45]`: Python `or` falls through
to the default both for `None` and for an (falsy) empty list. -/
def effScales : Option (List ℚ) → List ℚ
  | none => [0.65, 0.85, 1.0, 1.2, 1.45]
  | some [] => [0.65, 0.85, 1.0, 1.2, 1.45]
  | some (a :: l) => a :: l

/-- Resolution of `options.rotations or [0.0]` (Python `or`, see `effScales`). -/
def effRotations : Option (List ℚ) → List ℚ
  | none => [0]
  | some [] => [0]
  | some (a :: l) => a :: l

/-- Resolution of `options.label or "template-match"` (the empty string is falsy in Python). -/
def effLabel : Option String → String
  | none => "template-match"
  | some s => if s = "" then "template-match" else s

/-- The abstracted array-content environment (see the module docstring):
`corr si ri x y` is the correlation-map value `result[y, x]` of the pass at
scale index `si` and rotation index `ri`; `rotDims angle h w` is the canvas
shape produced by `rotate_template` for a nonzero angle. -/
structure CorrEnv where
  corr : ℕ → ℕ → ℕ → ℕ → ℚ
  rotDims : ℚ → ℕ → ℕ → ℕ × ℕ

/-- The time-independent part of a per-pass stats dict. -/
structure StatCore where
  pass : String
  candidates : ℕ
  kept : ℕ
  bestSimilarity : Option ℚ
deriving DecidableEq

/-- A per-pass stats dict as returned by `match_selection`. -/
structure PassStat where
  pass : String
  candidates : ℕ
  kept : ℕ
  durationMs : ℚ
  bestSimilarity : Option ℚ
deriving DecidableEq

/-- Python `format(q, ".<prec>f")` on an exact rational (ties to even). -/
def fmtFixed (q : ℚ) (prec : ℕ) : String :=
  let n := pyRound (q * (10 : ℚ) ^ prec)
  let sign := if n < 0 then "-" else ""
  let m := n.natAbs
  if prec = 0 then sign ++ toString m
  else
    sign ++ toString (m / 10 ^ prec) ++ "." ++
      (toString (10 ^ prec + m % 10 ^ prec)).drop 1

/-- Pass label `f"scale={scale:.2f}_rot={rotation:.0f}"` from app.py. -/
def passNameOf (scale rotation : ℚ) : String :=
  "scale=" ++ fmtFixed scale 2 ++ "_rot=" ++ fmtFixed rotation 0

/-- All cells of a `rh × rw` correlation map in NumPy row-major order
(`result[y, x]` for `y` outer, `x` inner). -/
def cellScores (f : ℕ → ℕ → ℚ) (rh rw : ℕ) : List ℚ :=
  (List.range rh).flatMap fun y => (List.range rw).map fun x => f x y

/-- Hits `np.where(result >= min_similarity)` zipped to `(x, y)` pairs, which NumPy
yields in row-major order. -/
def passHits (f : ℕ → ℕ → ℚ) (rh rw : ℕ) (minSim : ℚ) : List (ℕ × ℕ) :=
  (List.range rh).flatMap fun y => (List.range rw).filterMap fun x =>
    if minSim ≤ f x y then some (x, y) else none

/-- The per-pass hit cap: when more than `maxHits` cells qualify, keep only the
highest-scoring ones (stable descending sort, as Python's `sorted`). -/
def capHits (f : ℕ → ℕ → ℚ) (maxHits : ℕ) (hits : List (ℕ × ℕ)) : List (ℕ × ℕ) :=
  if maxHits < hits.length then
    ((((hits.map fun p => (f p.1 p.2, p)).mergeSort
        fun a b => decide (b.1 ≤ a.1)).take maxHits).map Prod.snd)
  else hits

/-- The loop-invariant context of the scale × rotation sweep. -/
structure SweepCtx where
  env : CorrEnv
  searchH : ℕ
  searchW : ℕ
  minSim : ℚ
  maxMatches : ℕ
  sLeft : ℤ
  sTop : ℤ
  factor : ℚ

/-- One executed pass: `cv2.matchTemplate` + thresholding + the hit cap +
candidate emission (lines 219-257 of app.py), for a variant of shape
`vH × vW` at scale index `si` / rotation index `ri`. -/
def execPass (ctx : SweepCtx) (si ri : ℕ) (scale rot : ℚ) (vH vW : ℕ) :
    List Cand × StatCore :=
  let pname := passNameOf scale rot
  let f := fun x y => ctx.env.corr si ri x y
  let rh := ctx.searchH - vH + 1
  let rw := ctx.searchW - vW + 1
  let best := (cellScores f rh rw).max?
  if rh * rw ≠ 0 then
    let hits := capHits f (max (ctx.maxMatches * MAX_PASS_HITS_MULTIPLIER) 400)
      (passHits f rh rw ctx.minSim)
    let cands := hits.map fun p =>
      { x := (ctx.sLeft : ℚ) + (p.1 : ℚ) / ctx.factor
        y := (ctx.sTop : ℚ) + (p.2 : ℚ) / ctx.factor
        width := (vW : ℚ) / ctx.factor
        height := (vH : ℚ) / ctx.factor
        score := f p.1 p.2
        pass := pname : Cand }
    (cands, ⟨pname, rh * rw, hits.length, best⟩)
  else ([], ⟨pname, rh * rw, 0, best⟩)

/-- The inner rotation loop (lines 214-257): build the rotated variant (a zero
angle is the identity), skip it if it does not fit in the search surface,
otherwise execute the pass. -/
def runRotations (ctx : SweepCtx) (si : ℕ) (scale : ℚ) (stH stW : ℕ) :
    List ℚ → ℕ → List Cand × List StatCore
  | [], _ => ([], [])
  | rot :: rest, ri =>
    let dims := if rot = 0 then (stH, stW) else ctx.env.rotDims rot stH stW
    if ctx.searchH ≤ dims.1 ∨ ctx.searchW ≤ dims.2 then
      runRotations ctx si scale stH stW rest (ri + 1)
    else
      let p := execPass ctx si ri scale rot dims.1 dims.2
      let r := runRotations ctx si scale stH stW rest (ri + 1)
      (p.1 ++ r.1, p.2 :: r.2)

/-- The outer scale loop (lines 208-257): resize the preprocessed template by
`scale` (OpenCV rounds the fractional target size half-to-even), skip the
scale if the result is below the minimum template size or does not fit,
otherwise run all rotations. -/
def runScales (ctx : SweepCtx) (baseH baseW : ℕ) :
    List ℚ → List ℚ → ℕ → List Cand × List StatCore
  | [], _, _ => ([], [])
  | scale :: rest, rots, si =>
    let stH := (pyRound ((baseH : ℚ) * scale)).toNat
    let stW := (pyRound ((baseW : ℚ) * scale)).toNat
    if stH < MIN_TEMPLATE_DIMENSION ∨ stW < MIN_TEMPLATE_DIMENSION then
      runScales ctx baseH baseW rest rots (si + 1)
    else if ctx.searchH ≤ stH ∨ ctx.searchW ≤ stW then
      runScales ctx baseH baseW rest rots (si + 1)
    else
      let a := runRotations ctx si scale stH stW rots 0
      let b := runScales ctx baseH baseW rest rots (si + 1)
      (a.1 ++ b.1, a.2 ++ b.2)

/-- NumPy basic-slice length `len(arr[start:stop])` for an axis of length `n`
and nonnegative bounds (the only case reached here: `normalized_to_pixels`
clamps both bounds into `[0, n]`). -/
def sliceLen (start stop : ℤ) (n : ℕ) : ℕ :=
  (min stop (n : ℤ) - min start (n : ℤ)).toNat

/-- Shape `(height, width)` of the pixel patch `image[top:bottom, left:right]`
obtained from a normalized rectangle. -/
def patchDims (box : Selection) (width height : ℕ) : ℕ × ℕ :=
  let q := normalized_to_pixels box width height
  (sliceLen q.2.1 q.2.2.2 height, sliceLen q.1 q.2.2.1 width)

/-- Line 187 of app.py: the search region is the whole image when
`search_padding` is unset, else the padded selection. -/
def searchBoxOf (selection : Selection) (padding : Option ℚ) : Selection :=
  match padding with
  | none => ⟨0, 0, 1, 1⟩
  | some p => expand_box selection p

/-- The sweep context assembled by lines 186-203 of app.py. -/
def sweepCtxOf (W H : ℕ) (selection : Selection) (options : MatchOptions)
    (env : CorrEnv) : SweepCtx :=
  let search_box := searchBoxOf selection options.search_padding
  let np := normalized_to_pixels search_box W H
  let sp := patchDims search_box W H
  let tp := patchDims selection W H
  let d := maybe_downscale_search sp.1 sp.2 tp.1 tp.2
  { env := env
    searchH := d.searchH
    searchW := d.searchW
    minSim := clamp options.min_similarity (-1) 1
    maxMatches := options.max_matches
    sLeft := np.1
    sTop := np.2.1
    factor := max d.factor (1/1000) }

/-- Shape of the preprocessed base template (`apply_mode_preprocess` preserves
shape, so this is the possibly-downscaled template patch shape). -/
def baseTplDims (W H : ℕ) (selection : Selection) (options : MatchOptions) : ℕ × ℕ :=
  let search_box := searchBoxOf selection options.search_padding
  let sp := patchDims search_box W H
  let tp := patchDims selection W H
  let d := maybe_downscale_search sp.1 sp.2 tp.1 tp.2
  (d.tplH, d.tplW)

/-- The full scale × rotation sweep: all candidates plus the time-independent
part of the per-pass stats, in emission order. -/
def sweepOut (W H : ℕ) (selection : Selection) (options : MatchOptions)
    (env : CorrEnv) : List Cand × List StatCore :=
  runScales (sweepCtxOf W H selection options env)
    (baseTplDims W H selection options).1 (baseTplDims W H selection options).2
    (effScales options.scales) (effRotations options.rotations) 0

/-- Attach wall-clock durations to the sweep stats: the `j`-th executed pass
reads `time.perf_counter()` at stream positions `2*j` and `2*j+1`. -/
def attachTimes (timeO : ℕ → ℚ) (cores : List StatCore) : List PassStat :=
  cores.enum.map fun p =>
    ⟨p.2.pass, p.2.candidates, p.2.kept,
     (timeO (2 * p.1 + 1) - timeO (2 * p.1)) * 1000, p.2.bestSimilarity⟩

/-- A returned match record. -/
structure Match where
  label : String
  confidence : ℚ
  boundingBox : Selection
  templateSimilarity : ℚ
  templatePass : String
deriving DecidableEq

/-- The response payload of `match_selection`. -/
structure MatchResult where
  matches' : List Match
  stats : List PassStat
  bestSimilarity : Option ℚ
  selection : Selection
  searchRegion : Selection
deriving DecidableEq

/-- The 400-level rejections raised by `match_selection` after decoding
(the spec's InvalidGeometryError class). -/
inductive MatchError where
  | invalidImageDims
  | selectionTooSmall
deriving DecidableEq

/-- Lines 269-284: convert one surviving candidate to a match record, clamping
each normalized coordinate to [0,1] independently. -/
def buildMatch (label : String) (W H : ℕ) (c : Cand) : Match :=
  { label := label
    confidence := c.score
    boundingBox :=
      { x := clamp (c.x / (W : ℚ)) 0 1
        y := clamp (c.y / (H : ℚ)) 0 1
        width := clamp (c.width / (W : ℚ)) 0 1
        height := clamp (c.height / (H : ℚ)) 0 1 }
    templateSimilarity := c.score
    templatePass := c.pass }

/-- Descending-similarity comparison for the final stable sort of matches'. -/
def simDescLe (a b : Match) : Bool := decide (b.templateSimilarity ≤ a.templateSimilarity)

/-- Lines 268-295: NMS, match construction, final sort, best similarity. -/
def finalize (label : String) (W H : ℕ) (selection search_box : Selection)
    (stats : List PassStat) (cands : List Cand) (nmsIou : ℚ) (maxMatches : ℕ) :
    MatchResult :=
  let filtered := non_max_suppression cands nmsIou maxMatches
  let matches' := (filtered.map (buildMatch label W H)).mergeSort simDescLe
  { matches' := matches'
    stats := stats
    bestSimilarity := matches'.head?.map Match.templateSimilarity
    selection := selection
    searchRegion := search_box }

/-- Endpoint handler `match_selection` from app.py (lines 172-295), starting from the decoded
image shape `H × W` (decoding itself is an external collaborator). -/
def match_selection (W H : ℕ) (selection : Selection) (options : MatchOptions)
    (env : CorrEnv) (timeO : ℕ → ℚ) : Except MatchError MatchResult :=
  if W = 0 ∨ H = 0 then .error .invalidImageDims
  else
    let tp := patchDims selection W H
    if tp.1 < 5 ∨ tp.2 < 5 then .error .selectionTooSmall
    else
      let search_box := searchBoxOf selection options.search_padding
      let out := sweepOut W H selection options env
      let stats := attachTimes timeO out.2
      if out.1 = [] then
        .ok { matches' := [], stats := stats, bestSimilarity := none,
              selection := selection, searchRegion := search_box }
      else
        .ok (finalize (effLabel options.label) W H selection search_box stats out.1
              options.nms_iou options.max_matches)

/-! ## Helper lemmas about `clamp` and `pyRound` -/

theorem clamp_lower_le (v lo hi : ℚ) : lo ≤ clamp v lo hi :=
  le_max_left _ _

theorem clamp_le_upper (v lo hi : ℚ) (h : lo ≤ hi) : clamp v lo hi ≤ hi :=
  max_le h (min_le_left _ _)

theorem clamp_le_of_le (v lo hi : ℚ) (h : lo ≤ v) : clamp v lo hi ≤ v :=
  max_le h (min_le_right _ _)

theorem le_clamp_of_le (v lo hi : ℚ) (h : v ≤ hi) : v ≤ clamp v lo hi :=
  le_trans (le_min h le_rfl) (le_max_right _ _)

theorem clamp_mono (lo hi : ℚ) {v₁ v₂ : ℚ} (h : v₁ ≤ v₂) :
    clamp v₁ lo hi ≤ clamp v₂ lo hi :=
  max_le_max le_rfl (min_le_min le_rfl h)

theorem floor_le_pyRound (q : ℚ) : ⌊q⌋ ≤ pyRound q := by
  unfold pyRound
  split_ifs <;> omega

theorem pyRound_le_floor_add_one (q : ℚ) : pyRound q ≤ ⌊q⌋ + 1 := by
  unfold pyRound
  split_ifs <;> omega

theorem pyRound_mono {q r : ℚ} (h : q ≤ r) : pyRound q ≤ pyRound r := by
  rcases lt_or_eq_of_le (Int.floor_le_floor h) with hf | hf
  · calc pyRound q ≤ ⌊q⌋ + 1 := pyRound_le_floor_add_one q
      _ ≤ ⌊r⌋ := by omega
      _ ≤ pyRound r := floor_le_pyRound r
  · unfold pyRound
    rw [← hf]
    split_ifs <;> first | omega | linarith

/-! ## C4: algebraic properties of `intersection_over_union` -/

theorem iou_comm (a b : Cand) :
    intersection_over_union a b = intersection_over_union b a := by
  simp only [intersection_over_union]
  rw [max_comm a.x b.x, max_comm a.y b.y, min_comm (a.x + a.width) (b.x + b.width),
    min_comm (a.y + a.height) (b.y + b.height),
    add_comm (a.width * a.height) (b.width * b.height)]

theorem iou_self (a : Cand) (hw : 0 < a.width) (hh : 0 < a.height) :
    intersection_over_union a a = 1 := by
  simp only [intersection_over_union, max_self, min_self, add_sub_cancel_left]
  rw [max_eq_right hw.le, max_eq_right hh.le, if_neg (not_le.mpr (mul_pos hw hh)),
    add_sub_cancel_right, if_pos (mul_pos hw hh), div_self (mul_pos hw hh).ne']

theorem iou_of_separated (a b : Cand)
    (h : min (a.x + a.width) (b.x + b.width) ≤ max a.x b.x
      ∨ min (a.y + a.height) (b.y + b.height) ≤ max a.y b.y) :
    intersection_over_union a b = 0 := by
  simp only [intersection_over_union]
  rcases h with h | h
  · rw [max_eq_left (sub_nonpos.mpr h), zero_mul, if_pos le_rfl]
  · rw [max_eq_left (sub_nonpos.mpr h), mul_zero, if_pos le_rfl]

/-- C4: `intersection_over_union` is symmetric; a (nondegenerate) box has
IoU 1 with itself; boxes whose intervals do not overlap on some axis
(zero or negative intersection) have IoU 0. -/
theorem c4_iou_symmetric_self_one_disjoint_zero :
    (∀ a b : Cand, intersection_over_union a b = intersection_over_union b a)
    ∧ (∀ a : Cand, 0 < a.width → 0 < a.height → intersection_over_union a a = 1)
    ∧ (∀ a b : Cand,
        min (a.x + a.width) (b.x + b.width) ≤ max a.x b.x
          ∨ min (a.y + a.height) (b.y + b.height) ≤ max a.y b.y →
        intersection_over_union a b = 0) :=
  ⟨iou_comm, iou_self, iou_of_separated⟩

/-- Witness for C4 at concrete boxes. -/
theorem c4_iou_witness :
    intersection_over_union ⟨0, 0, 1, 1, 1, "a"⟩ ⟨0, 0, 1, 1, 1, "a"⟩ = 1
    ∧ intersection_over_union ⟨0, 0, 1, 1, 1, "a"⟩ ⟨5, 5, 1, 1, 1, "b"⟩ = 0 :=
  ⟨c4_iou_symmetric_self_one_disjoint_zero.2.1 ⟨0, 0, 1, 1, 1, "a"⟩
      (by norm_num) (by norm_num),
   c4_iou_symmetric_self_one_disjoint_zero.2.2 ⟨0, 0, 1, 1, 1, "a"⟩ ⟨5, 5, 1, 1, 1, "b"⟩
      (Or.inl (by norm_num))⟩

/-! ## C5: ScaleGuard factor bounds -/

/-- C5: for any search patch and any template patch of minimum dimension at
least the 5-pixel floor (the pipeline rejects smaller templates before calling
ScaleGuard), the downscale factor is at least `max(5/template_min_dim, 0.05)`
and at most 1. -/
theorem c5_scaleguard_factor_bounds (sh sw th tw : ℕ) (h5 : 5 ≤ min th tw) :
    max ((5 : ℚ) / ((min th tw : ℕ) : ℚ)) (1/20)
        ≤ (maybe_downscale_search sh sw th tw).factor
    ∧ (maybe_downscale_search sh sw th tw).factor ≤ 1 := by
  have hpos : (0 : ℚ) < ((min th tw : ℕ) : ℚ) := by
    have : 0 < min th tw := by omega
    exact_mod_cast this
  have hb1 : (5 : ℚ) / ((min th tw : ℕ) : ℚ) ≤ 1 := by
    rw [div_le_one hpos]
    exact_mod_cast h5
  have hup : max ((5 : ℚ) / ((min th tw : ℕ) : ℚ)) (1/20) ≤ 1 :=
    max_le hb1 (by norm_num)
  have htmd : max 1 (min th tw) = min th tw := max_eq_right (by omega)
  simp only [maybe_downscale_search, MIN_TEMPLATE_DIMENSION, htmd]
  split_ifs
  · exact ⟨hup, le_refl 1⟩
  · exact ⟨hup, le_refl 1⟩
  · exact ⟨le_min (le_max_right _ _) hup, min_le_right _ _⟩

/-- Witness for C5 at a concrete oversized search patch. -/
theorem c5_scaleguard_witness :
    max ((5 : ℚ) / ((min 100 100 : ℕ) : ℚ)) (1/20)
        ≤ (maybe_downscale_search 2000 2000 100 100).factor
    ∧ (maybe_downscale_search 2000 2000 100 100).factor ≤ 1 :=
  c5_scaleguard_factor_bounds 2000 2000 100 100 (by norm_num)

/-! ## C6: `expand_box` containment and bounds -/

/-- C6: for a valid rectangle and nonnegative padding, `expand_box` contains
the original rectangle and stays inside the normalized [0,1] bounds. -/
theorem c6_expand_box_contains_and_within (b : Selection) (p : ℚ)
    (hx0 : 0 ≤ b.x) (hx1 : b.x ≤ 1) (hy0 : 0 ≤ b.y) (hy1 : b.y ≤ 1)
    (hw0 : 0 < b.width) (hw1 : b.width ≤ 1) (hh0 : 0 < b.height) (hh1 : b.height ≤ 1)
    (hxw : b.x + b.width ≤ 1) (hyh : b.y + b.height ≤ 1) (hp : 0 ≤ p) :
    ((expand_box b p).x ≤ b.x ∧ (expand_box b p).y ≤ b.y
      ∧ b.x + b.width ≤ (expand_box b p).x + (expand_box b p).width
      ∧ b.y + b.height ≤ (expand_box b p).y + (expand_box b p).height)
    ∧ (0 ≤ (expand_box b p).x ∧ (expand_box b p).x ≤ 1
      ∧ 0 ≤ (expand_box b p).y ∧ (expand_box b p).y ≤ 1
      ∧ 0 ≤ (expand_box b p).width ∧ 0 ≤ (expand_box b p).height
      ∧ (expand_box b p).x + (expand_box b p).width ≤ 1
      ∧ (expand_box b p).y + (expand_box b p).height ≤ 1) := by
  simp only [expand_box]
  split_ifs with hple
  · exact ⟨⟨le_refl _, le_refl _, le_refl _, le_refl _⟩,
      hx0, hx1, hy0, hy1, hw0.le, hh0.le, hxw, hyh⟩
  · have hpw : 0 ≤ b.width * p := mul_nonneg hw0.le hp
    have hph : 0 ≤ b.height * p := mul_nonneg hh0.le hp
    have hX0 : 0 ≤ clamp (b.x - b.width * p) 0 1 := clamp_lower_le _ _ _
    have hX1 : clamp (b.x - b.width * p) 0 1 ≤ 1 := clamp_le_upper _ _ _ (by norm_num)
    have hXle : clamp (b.x - b.width * p) 0 1 ≤ b.x :=
      max_le hx0 (le_trans (min_le_right _ _) (by linarith))
    have hY0 : 0 ≤ clamp (b.y - b.height * p) 0 1 := clamp_lower_le _ _ _
    have hY1 : clamp (b.y - b.height * p) 0 1 ≤ 1 := clamp_le_upper _ _ _ (by norm_num)
    have hYle : clamp (b.y - b.height * p) 0 1 ≤ b.y :=
      max_le hy0 (le_trans (min_le_right _ _) (by linarith))
    have hR1 : clamp (b.x + b.width + b.width * p) 0 1 ≤ 1 :=
      clamp_le_upper _ _ _ (by norm_num)
    have hRge : b.x + b.width ≤ clamp (b.x + b.width + b.width * p) 0 1 :=
      le_trans (le_min hxw (by linarith)) (le_max_right _ _)
    have hB1 : clamp (b.y + b.height + b.height * p) 0 1 ≤ 1 :=
      clamp_le_upper _ _ _ (by norm_num)
    have hBge : b.y + b.height ≤ clamp (b.y + b.height + b.height * p) 0 1 :=
      le_trans (le_min hyh (by linarith)) (le_max_right _ _)
    refine ⟨⟨hXle, hYle, by dsimp only; linarith, by dsimp only; linarith⟩,
      hX0, hX1, hY0, hY1, by dsimp only; linarith, by dsimp only; linarith,
      by dsimp only; linarith, by dsimp only; linarith⟩

/-- Witness for C6 at a concrete rectangle and padding. -/
theorem c6_expand_box_witness :
    ((expand_box ⟨1/4, 1/4, 1/2, 1/2⟩ 1).x ≤ (1/4 : ℚ)
      ∧ (expand_box ⟨1/4, 1/4, 1/2, 1/2⟩ 1).y ≤ (1/4 : ℚ)
      ∧ (1/4 : ℚ) + 1/2 ≤ (expand_box ⟨1/4, 1/4, 1/2, 1/2⟩ 1).x
          + (expand_box ⟨1/4, 1/4, 1/2, 1/2⟩ 1).width
      ∧ (1/4 : ℚ) + 1/2 ≤ (expand_box ⟨1/4, 1/4, 1/2, 1/2⟩ 1).y
          + (expand_box ⟨1/4, 1/4, 1/2, 1/2⟩ 1).height)
    ∧ (0 ≤ (expand_box ⟨1/4, 1/4, 1/2, 1/2⟩ 1).x
      ∧ (expand_box ⟨1/4, 1/4, 1/2, 1/2⟩ 1).x ≤ 1
      ∧ 0 ≤ (expand_box ⟨1/4, 1/4, 1/2, 1/2⟩ 1).y
      ∧ (expand_box ⟨1/4, 1/4, 1/2, 1/2⟩ 1).y ≤ 1
      ∧ 0 ≤ (expand_box ⟨1/4, 1/4, 1/2, 1/2⟩ 1).width
      ∧ 0 ≤ (expand_box ⟨1/4, 1/4, 1/2, 1/2⟩ 1).height
      ∧ (expand_box ⟨1/4, 1/4, 1/2, 1/2⟩ 1).x
          + (expand_box ⟨1/4, 1/4, 1/2, 1/2⟩ 1).width ≤ 1
      ∧ (expand_box ⟨1/4, 1/4, 1/2, 1/2⟩ 1).y
          + (expand_box ⟨1/4, 1/4, 1/2, 1/2⟩ 1).height ≤ 1) :=
  c6_expand_box_contains_and_within ⟨1/4, 1/4, 1/2, 1/2⟩ 1
    (by norm_num) (by norm_num) (by norm_num) (by norm_num) (by norm_num)
    (by norm_num) (by norm_num) (by norm_num) (by norm_num) (by norm_num) (by norm_num)

/-! ## C7: monotonicity of `normalized_to_pixels` in the extent -/

/-- C7: with `x`, `y` and the image size fixed, growing the normalized width
never shrinks `right - left`, and growing the normalized height never shrinks
`bottom - top`. -/
theorem c7_normalized_to_pixels_monotone (x y w₁ w₂ h₁ h₂ : ℚ) (W H : ℕ)
    (hw : w₁ ≤ w₂) (hh : h₁ ≤ h₂) :
    (normalized_to_pixels ⟨x, y, w₁, h₁⟩ W H).2.2.1
        - (normalized_to_pixels ⟨x, y, w₁, h₁⟩ W H).1
      ≤ (normalized_to_pixels ⟨x, y, w₂, h₂⟩ W H).2.2.1
        - (normalized_to_pixels ⟨x, y, w₂, h₂⟩ W H).1
    ∧ (normalized_to_pixels ⟨x, y, w₁, h₁⟩ W H).2.2.2
        - (normalized_to_pixels ⟨x, y, w₁, h₁⟩ W H).2.1
      ≤ (normalized_to_pixels ⟨x, y, w₂, h₂⟩ W H).2.2.2
        - (normalized_to_pixels ⟨x, y, w₂, h₂⟩ W H).2.1 := by
  have hW : (0 : ℚ) ≤ (W : ℚ) := Nat.cast_nonneg W
  have hH : (0 : ℚ) ≤ (H : ℚ) := Nat.cast_nonneg H
  simp only [normalized_to_pixels]
  constructor
  · exact sub_le_sub_right
      (pyRound_mono (mul_le_mul_of_nonneg_right
        (add_le_add_left (clamp_mono _ _ hw) _) hW)) _
  · exact sub_le_sub_right
      (pyRound_mono (mul_le_mul_of_nonneg_right
        (add_le_add_left (clamp_mono _ _ hh) _) hH)) _

/-- Witness for C7 at concrete widths and heights. -/
theorem c7_monotone_witness :
    (normalized_to_pixels ⟨0, 0, 1/4, 1/4⟩ 100 100).2.2.1
        - (normalized_to_pixels ⟨0, 0, 1/4, 1/4⟩ 100 100).1
      ≤ (normalized_to_pixels ⟨0, 0, 1/2, 1/2⟩ 100 100).2.2.1
        - (normalized_to_pixels ⟨0, 0, 1/2, 1/2⟩ 100 100).1
    ∧ (normalized_to_pixels ⟨0, 0, 1/4, 1/4⟩ 100 100).2.2.2
        - (normalized_to_pixels ⟨0, 0, 1/4, 1/4⟩ 100 100).2.1
      ≤ (normalized_to_pixels ⟨0, 0, 1/2, 1/2⟩ 100 100).2.2.2
        - (normalized_to_pixels ⟨0, 0, 1/2, 1/2⟩ 100 100).2.1 :=
  c7_normalized_to_pixels_monotone 0 0 (1/4) (1/2) (1/4) (1/2) 100 100
    (by norm_num) (by norm_num)

/-! ## C3: greedy NMS is idempotent -/

theorem nmsGo_sublist (thr : ℚ) (n : ℕ) : ∀ l : List Cand, List.Sublist (nmsGo thr n l) l := by
  induction n with
  | zero => intro l; simp [nmsGo]
  | succ k ih =>
    intro l
    cases l with
    | nil => simp [nmsGo]
    | cons c rest =>
      simp only [nmsGo]
      exact ((ih _).trans (List.filter_sublist _)).cons₂ c

theorem nmsGo_length_le (thr : ℚ) (n : ℕ) : ∀ l : List Cand, (nmsGo thr n l).length ≤ n := by
  induction n with
  | zero => intro l; simp [nmsGo]
  | succ k ih =>
    intro l
    cases l with
    | nil => simp [nmsGo]
    | cons c rest =>
      simp only [nmsGo, List.length_cons]
      exact Nat.succ_le_succ (ih _)

theorem nmsGo_pairwise_iou (thr : ℚ) (n : ℕ) :
    ∀ l : List Cand,
      (nmsGo thr n l).Pairwise fun a b => intersection_over_union b a ≤ thr := by
  induction n with
  | zero => intro l; simp [nmsGo]
  | succ k ih =>
    intro l
    cases l with
    | nil => simp [nmsGo]
    | cons c rest =>
      simp only [nmsGo]
      refine List.Pairwise.cons ?_ (ih _)
      intro b hb
      have hb' : b ∈ rest.filter fun cand =>
          decide (intersection_over_union cand c ≤ thr) :=
        (nmsGo_sublist thr k _).subset hb
      exact of_decide_eq_true (List.mem_filter.mp hb').2

theorem nmsGo_of_invariant (thr : ℚ) (l : List Cand) :
    ∀ n : ℕ, (l.Pairwise fun a b => intersection_over_union b a ≤ thr) →
      l.length ≤ n → nmsGo thr n l = l := by
  induction l with
  | nil => intro n _ _; cases n <;> simp [nmsGo]
  | cons c rest ih =>
    intro n hp hl
    cases n with
    | zero => simp at hl
    | succ k =>
      simp only [nmsGo]
      have hfilter : (rest.filter fun cand =>
          decide (intersection_over_union cand c ≤ thr)) = rest := by
        apply List.filter_eq_self.mpr
        intro b hb
        exact decide_eq_true (List.rel_of_pairwise_cons hp hb)
      rw [hfilter, ih k ((List.pairwise_cons.mp hp).2) (by simpa using hl)]

theorem scoreDescLe_trans : ∀ a b c : Cand, scoreDescLe a b → scoreDescLe b c → scoreDescLe a c := by
  intro a b c hab hbc
  simp only [scoreDescLe, decide_eq_true_eq] at *
  exact le_trans hbc hab

theorem scoreDescLe_total : ∀ a b : Cand, scoreDescLe a b || scoreDescLe b a := by
  intro a b
  simp only [scoreDescLe, Bool.or_eq_true, decide_eq_true_eq]
  exact le_total b.score a.score

/-- C3: greedy NMS is idempotent: applied to its own output with the same
threshold and detection limit it returns that output unchanged, for every
candidate list, threshold and limit. -/
theorem c3_nms_idempotent (boxes : List Cand) (iou_threshold : ℚ) (max_detections : ℕ) :
    non_max_suppression (non_max_suppression boxes iou_threshold max_detections)
        iou_threshold max_detections
      = non_max_suppression boxes iou_threshold max_detections := by
  have hsorted : (non_max_suppression boxes iou_threshold max_detections).Pairwise
      fun a b => scoreDescLe a b := by
    exact List.Pairwise.sublist (nmsGo_sublist _ _ _)
      (List.sorted_mergeSort scoreDescLe_trans scoreDescLe_total boxes)
  show nmsGo iou_threshold max_detections
      ((non_max_suppression boxes iou_threshold max_detections).mergeSort scoreDescLe)
    = non_max_suppression boxes iou_threshold max_detections
  rw [List.mergeSort_of_sorted hsorted]
  exact nmsGo_of_invariant iou_threshold _ max_detections
    (nmsGo_pairwise_iou _ _ _) (nmsGo_length_le _ _ _)

/-! ## C8: geometric rejections -/

/-- C8: a zero-area image is rejected, and (for a non-degenerate image) a
selection whose pixel patch is narrower or shorter than the 5-pixel minimum
template dimension is rejected with the selection-too-small 400-level error;
in both cases no matching is performed (the pipeline returns before the
sweep). -/
theorem c8_small_selection_rejected (W H : ℕ) (sel : Selection) (opt : MatchOptions)
    (env : CorrEnv) (timeO : ℕ → ℚ) :
    ((W = 0 ∨ H = 0) →
      match_selection W H sel opt env timeO = .error .invalidImageDims)
    ∧ (¬(W = 0 ∨ H = 0) →
      ((patchDims sel W H).1 < 5 ∨ (patchDims sel W H).2 < 5) →
      match_selection W H sel opt env timeO = .error .selectionTooSmall) := by
  constructor
  · intro h
    simp only [match_selection, if_pos h]
  · intro h hs
    simp only [match_selection, if_neg h, if_pos hs]

/-- Witness for C8: a 3×3-pixel selection on a 1000×1000 image is rejected. -/
theorem c8_small_selection_witness :
    match_selection 1000 1000 ⟨0, 0, 3/1000, 3/1000⟩ {}
        ⟨fun _ _ _ _ => 0, fun _ h w => (h, w)⟩ (fun _ => 0)
      = .error .selectionTooSmall :=
  (c8_small_selection_rejected 1000 1000 ⟨0, 0, 3/1000, 3/1000⟩ {}
      ⟨fun _ _ _ _ => 0, fun _ h w => (h, w)⟩ (fun _ => 0)).2
    (by with_unfolding_all decide) (by with_unfolding_all decide)

/-! ## C9: a zero-candidate sweep yields a well-formed empty result -/

/-- Whether the rotation variant of a `stH × stW` scaled template survives the
fit check of the inner loop (i.e. the pass executes). -/
def rotExecutes (ctx : SweepCtx) (stH stW : ℕ) (rot : ℚ) : Bool :=
  let dims := if rot = 0 then (stH, stW) else ctx.env.rotDims rot stH stW
  decide (¬(ctx.searchH ≤ dims.1 ∨ ctx.searchW ≤ dims.2))

/-- The `(scale, rotation)` pairs of the sweep that actually execute
(survive both skip checks), in sweep order. -/
def executedPassPairs (ctx : SweepCtx) (baseH baseW : ℕ) (scales rots : List ℚ) :
    List (ℚ × ℚ) :=
  scales.flatMap fun scale =>
    let stH := (pyRound ((baseH : ℚ) * scale)).toNat
    let stW := (pyRound ((baseW : ℚ) * scale)).toNat
    if stH < MIN_TEMPLATE_DIMENSION ∨ stW < MIN_TEMPLATE_DIMENSION then []
    else if ctx.searchH ≤ stH ∨ ctx.searchW ≤ stW then []
    else rots.filterMap fun rot =>
      if rotExecutes ctx stH stW rot then some (scale, rot) else none

theorem runRotations_stats_length (ctx : SweepCtx) (si : ℕ) (scale : ℚ) (stH stW : ℕ) :
    ∀ (rots : List ℚ) (ri : ℕ),
      (runRotations ctx si scale stH stW rots ri).2.length
        = (rots.filterMap fun rot =>
            if rotExecutes ctx stH stW rot then some (scale, rot) else none).length := by
  intro rots
  induction rots with
  | nil => intro ri; simp [runRotations]
  | cons rot rest ih =>
    intro ri
    by_cases h : ctx.searchH ≤ (if rot = 0 then (stH, stW) else ctx.env.rotDims rot stH stW).1
        ∨ ctx.searchW ≤ (if rot = 0 then (stH, stW) else ctx.env.rotDims rot stH stW).2
    · have he : rotExecutes ctx stH stW rot = false := by
        simp only [rotExecutes]
        exact decide_eq_false (not_not_intro h)
      simp only [runRotations, if_pos h, List.filterMap_cons, he]
      simpa using ih (ri + 1)
    · have he : rotExecutes ctx stH stW rot = true := by
        simp only [rotExecutes]
        exact decide_eq_true h
      simp only [runRotations, if_neg h, List.filterMap_cons, he]
      simp only [if_true, List.length_cons]
      rw [ih (ri + 1)]

theorem runScales_stats_length (ctx : SweepCtx) (baseH baseW : ℕ) :
    ∀ (scales rots : List ℚ) (si : ℕ),
      (runScales ctx baseH baseW scales rots si).2.length
        = (executedPassPairs ctx baseH baseW scales rots).length := by
  intro scales
  induction scales with
  | nil => intro rots si; simp [runScales, executedPassPairs]
  | cons scale rest ih =>
    intro rots si
    by_cases h1 : ((pyRound ((baseH : ℚ) * scale)).toNat < MIN_TEMPLATE_DIMENSION
        ∨ (pyRound ((baseW : ℚ) * scale)).toNat < MIN_TEMPLATE_DIMENSION)
    · simp only [runScales, executedPassPairs, List.flatMap_cons, if_pos h1,
        List.nil_append]
      exact ih rots (si + 1)
    · by_cases h2 : (ctx.searchH ≤ (pyRound ((baseH : ℚ) * scale)).toNat
          ∨ ctx.searchW ≤ (pyRound ((baseW : ℚ) * scale)).toNat)
      · simp only [runScales, executedPassPairs, List.flatMap_cons, if_neg h1,
          if_pos h2, List.nil_append]
        exact ih rots (si + 1)
      · have hrr := runRotations_stats_length ctx si scale
          ((pyRound ((baseH : ℚ) * scale)).toNat) ((pyRound ((baseW : ℚ) * scale)).toNat) rots 0
        have ih' := ih rots (si + 1)
        simp only [runScales, if_neg h1, if_neg h2, List.length_append]
        rw [hrr, ih']
        simp only [executedPassPairs, List.flatMap_cons, if_neg h1, if_neg h2,
          List.length_append]

/-- C9: whenever the geometry checks pass and the sweep produces zero
candidates, `match_selection` returns a well-formed non-error result with an
empty match list, a `null` best similarity, the original selection, the
resolved search region, and a stats list with exactly one entry per executed
(non-skipped) pass. -/
theorem c9_zero_candidates_empty_result (W H : ℕ) (sel : Selection)
    (opt : MatchOptions) (env : CorrEnv) (timeO : ℕ → ℚ)
    (hdim : ¬(W = 0 ∨ H = 0))
    (htpl : ¬((patchDims sel W H).1 < 5 ∨ (patchDims sel W H).2 < 5))
    (hc : (sweepOut W H sel opt env).1 = []) :
    match_selection W H sel opt env timeO
      = .ok { matches' := [],
              stats := attachTimes timeO (sweepOut W H sel opt env).2,
              bestSimilarity := none,
              selection := sel,
              searchRegion := searchBoxOf sel opt.search_padding }
    ∧ (attachTimes timeO (sweepOut W H sel opt env).2).length
        = (executedPassPairs (sweepCtxOf W H sel opt env)
            (baseTplDims W H sel opt).1 (baseTplDims W H sel opt).2
            (effScales opt.scales) (effRotations opt.rotations)).length := by
  constructor
  · simp only [match_selection, if_neg hdim, if_neg htpl, if_pos hc]
  · have h1 : (attachTimes timeO (sweepOut W H sel opt env).2).length
        = (sweepOut W H sel opt env).2.length := by
      simp [attachTimes]
    rw [h1]
    exact runScales_stats_length _ _ _ _ _ _

/-- Witness for C9 at a concrete no-match request (constant-zero correlation
oracle, default 0.6 threshold). -/
theorem c9_zero_candidates_witness :
    match_selection 25 25 ⟨0, 0, 4/5, 4/5⟩ { scales := some [1] }
        ⟨fun _ _ _ _ => 0, fun _ h w => (h, w)⟩ (fun _ => 0)
      = .ok { matches' := [],
              stats := attachTimes (fun _ => 0)
                (sweepOut 25 25 ⟨0, 0, 4/5, 4/5⟩ { scales := some [1] }
                  ⟨fun _ _ _ _ => 0, fun _ h w => (h, w)⟩).2,
              bestSimilarity := none,
              selection := ⟨0, 0, 4/5, 4/5⟩,
              searchRegion := searchBoxOf ⟨0, 0, 4/5, 4/5⟩
                ({ scales := some [1] } : MatchOptions).search_padding }
    ∧ (attachTimes (fun _ => 0)
        (sweepOut 25 25 ⟨0, 0, 4/5, 4/5⟩ { scales := some [1] }
          ⟨fun _ _ _ _ => 0, fun _ h w => (h, w)⟩).2).length
        = (executedPassPairs
            (sweepCtxOf 25 25 ⟨0, 0, 4/5, 4/5⟩ { scales := some [1] }
              ⟨fun _ _ _ _ => 0, fun _ h w => (h, w)⟩)
            (baseTplDims 25 25 ⟨0, 0, 4/5, 4/5⟩ { scales := some [1] }).1
            (baseTplDims 25 25 ⟨0, 0, 4/5, 4/5⟩ { scales := some [1] }).2
            (effScales ({ scales := some [1] } : MatchOptions).scales)
            (effRotations ({ scales := some [1] } : MatchOptions).rotations)).length :=
  c9_zero_candidates_empty_result 25 25 ⟨0, 0, 4/5, 4/5⟩ { scales := some [1] }
    ⟨fun _ _ _ _ => 0, fun _ h w => (h, w)⟩ (fun _ => 0)
    (by with_unfolding_all decide) (by with_unfolding_all decide) (by with_unfolding_all decide)

/-! ## C10: explicitly empty scale/rotation lists fall back to the defaults -/

/-- C10: passing `scales=[]` (resp. `rotations=[]`) behaves exactly like
leaving the field unset — Python's `or` substitutes the default list in both
cases — and the effective scale and rotation lists are never empty, so the
sweep always iterates over a nonempty set of combinations. -/
theorem c10_empty_lists_use_defaults (W H : ℕ) (sel : Selection)
    (opt : MatchOptions) (env : CorrEnv) (timeO : ℕ → ℚ) :
    match_selection W H sel { opt with scales := some [] } env timeO
        = match_selection W H sel { opt with scales := none } env timeO
    ∧ match_selection W H sel { opt with rotations := some [] } env timeO
        = match_selection W H sel { opt with rotations := none } env timeO
    ∧ ∀ s : Option (List ℚ), effScales s ≠ [] ∧ effRotations s ≠ [] := by
  refine ⟨rfl, rfl, ?_⟩
  intro s
  rcases s with _ | (_ | ⟨a, l⟩)
  · exact ⟨by with_unfolding_all decide, by with_unfolding_all decide⟩
  · exact ⟨by with_unfolding_all decide, by with_unfolding_all decide⟩
  · exact ⟨List.cons_ne_nil a l, List.cons_ne_nil a l⟩

/-! ## C1: determinism of the pipeline -/

/-- Erase the wall-clock field of a stats record. -/
def PassStat.zeroTime (s : PassStat) : PassStat :=
  { s with durationMs := 0 }

/-- Erase all wall-clock fields of a result. -/
def MatchResult.stripTimes (r : MatchResult) : MatchResult :=
  { r with stats := r.stats.map PassStat.zeroTime }

theorem attachTimes_zeroTime (t : ℕ → ℚ) (cores : List StatCore) :
    (attachTimes t cores).map PassStat.zeroTime
      = cores.map fun c => ⟨c.pass, c.candidates, c.kept, 0, c.bestSimilarity⟩ := by
  simp only [attachTimes, List.map_map]
  have h : (PassStat.zeroTime ∘ fun p : ℕ × StatCore =>
        (⟨p.2.pass, p.2.candidates, p.2.kept,
          (t (2 * p.1 + 1) - t (2 * p.1)) * 1000, p.2.bestSimilarity⟩ : PassStat))
      = (fun c : StatCore =>
          (⟨c.pass, c.candidates, c.kept, 0, c.bestSimilarity⟩ : PassStat)) ∘ Prod.snd := by
    funext p
    rfl
  rw [h, ← List.map_map, List.enum_map_snd]

/-- C1 (amended): the pipeline is a deterministic function of
(image, selection, options) in every output component except the
`durationMs` diagnostic of each stats entry, which reads the wall clock:
two runs that may observe different clock streams agree after erasing
`durationMs`. -/
theorem c1_deterministic_up_to_durations (W H : ℕ) (sel : Selection)
    (opt : MatchOptions) (env : CorrEnv) (t₁ t₂ : ℕ → ℚ) :
    (match_selection W H sel opt env t₁).map MatchResult.stripTimes
      = (match_selection W H sel opt env t₂).map MatchResult.stripTimes := by
  simp only [match_selection]
  split_ifs
  · rfl
  · rfl
  · simp only [Except.map, MatchResult.stripTimes, attachTimes_zeroTime]
  · simp only [Except.map, finalize, MatchResult.stripTimes, attachTimes_zeroTime]

/-- Counterexample to C1 as stated: on a concrete request the two runs of the
pipeline differ (only) in the stats `durationMs` produced by the two clock
streams, so the full output including stats is not a pure function of
(image, selection, options). -/
theorem c1_timing_counterexample :
    (match_selection 30 30 ⟨0, 0, 2/3, 2/3⟩ { scales := some [1] }
        ⟨fun _ _ _ _ => 0, fun _ h w => (h, w)⟩ (fun _ => 0)).toOption
      ≠ (match_selection 30 30 ⟨0, 0, 2/3, 2/3⟩ { scales := some [1] }
        ⟨fun _ _ _ _ => 0, fun _ h w => (h, w)⟩ (fun n => (n : ℚ))).toOption := by
  with_unfolding_all decide

/-! ## C2: bounding boxes of returned matches -/

theorem finalize_bbox_bounds (label : String) (W H : ℕ) (sel box : Selection)
    (stats : List PassStat) (cands : List Cand) (thr : ℚ) (maxd : ℕ) (m : Match)
    (hm : m ∈ (finalize label W H sel box stats cands thr maxd).matches') :
    0 ≤ m.boundingBox.x ∧ m.boundingBox.x ≤ 1
    ∧ 0 ≤ m.boundingBox.y ∧ m.boundingBox.y ≤ 1
    ∧ 0 ≤ m.boundingBox.width ∧ m.boundingBox.width ≤ 1
    ∧ 0 ≤ m.boundingBox.height ∧ m.boundingBox.height ≤ 1 := by
  simp only [finalize] at hm
  rw [List.mem_mergeSort] at hm
  rcases List.mem_map.mp hm with ⟨c, _, rfl⟩
  simp only [buildMatch]
  exact ⟨clamp_lower_le _ _ _, clamp_le_upper _ _ _ (by norm_num),
    clamp_lower_le _ _ _, clamp_le_upper _ _ _ (by norm_num),
    clamp_lower_le _ _ _, clamp_le_upper _ _ _ (by norm_num),
    clamp_lower_le _ _ _, clamp_le_upper _ _ _ (by norm_num)⟩

/-- C2 (amended): every bounding box of a returned match has each of its
fields `x`, `y`, `width`, `height` clamped into `[0, 1]`; the Selection sum
invariants `x + width ≤ 1` and `y + height ≤ 1` are NOT guaranteed, because
each coordinate is clamped independently (see the counterexample). -/
theorem c2_bbox_fields_in_unit_interval (W H : ℕ) (sel : Selection)
    (opt : MatchOptions) (env : CorrEnv) (timeO : ℕ → ℚ) (r : MatchResult) (m : Match)
    (hr : (match_selection W H sel opt env timeO).toOption = some r)
    (hm : m ∈ r.matches') :
    0 ≤ m.boundingBox.x ∧ m.boundingBox.x ≤ 1
    ∧ 0 ≤ m.boundingBox.y ∧ m.boundingBox.y ≤ 1
    ∧ 0 ≤ m.boundingBox.width ∧ m.boundingBox.width ≤ 1
    ∧ 0 ≤ m.boundingBox.height ∧ m.boundingBox.height ≤ 1 := by
  simp only [match_selection] at hr
  split_ifs at hr
  · simp [Except.toOption] at hr
  · simp [Except.toOption] at hr
  · simp only [Except.toOption, Option.some.injEq] at hr
    subst hr
    simp at hm
  · simp only [Except.toOption, Option.some.injEq] at hr
    subst hr
    exact finalize_bbox_bounds _ _ _ _ _ _ _ _ _ _ hm

/-- The bounding-box validity predicate asserted by the claim: every field in
`[0,1]` plus the Selection sum invariants. -/
def validBoxB (s : Selection) : Bool :=
  decide (0 ≤ s.x) && decide (s.x ≤ 1) && decide (0 ≤ s.y) && decide (s.y ≤ 1)
    && decide (0 ≤ s.width) && decide (s.width ≤ 1)
    && decide (0 ≤ s.height) && decide (s.height ≤ 1)
    && decide (s.x + s.width ≤ 1) && decide (s.y + s.height ≤ 1)

/-- Whether every match returned by a pipeline run has a bounding box that
is a valid Selection in the claim's sense (vacuously `true` on errors). -/
def allReturnedBoxesValid : Except MatchError MatchResult → Bool
  | .error _ => true
  | .ok r => r.matches'.all fun m => validBoxB m.boundingBox

/-- Counterexample to C2 as stated: on a 1000×2001 image the search region is
downscaled by `1600/2001`, and `round(1000 * 1600/2001) = 800` rounds *up*, so
the rightmost correlation cell maps back to `x + width = 800/(1600/2001)
= 1000.5` pixels — beyond the image.  The returned match has
`x + width = 2001/2000 > 1` after per-field clamping. -/
theorem c2_bbox_counterexample :
    allReturnedBoxesValid (match_selection 1000 2001 ⟨0, 0, 994/1000, 1990/2001⟩
        { scales := some [1] }
        ⟨fun _ _ x y => if x = 5 ∧ y = 9 then 9/10 else 0, fun _ h w => (h, w)⟩
        (fun _ => 0)) = false := by
  with_unfolding_all decide

/-- The match returned by the C2 witness run. -/
def c2wMatch : Match :=
  { label := "template-match"
    confidence := 9/10
    boundingBox := ⟨0, 0, 2/3, 2/3⟩
    templateSimilarity := 9/10
    templatePass := "scale=1.00_rot=0" }

/-- The full result of the C2 witness run. -/
def c2wResult : MatchResult :=
  { matches' := [c2wMatch]
    stats := [⟨"scale=1.00_rot=0", 121, 1, 0, some (9/10)⟩]
    bestSimilarity := some (9/10)
    selection := ⟨0, 0, 2/3, 2/3⟩
    searchRegion := ⟨0, 0, 1, 1⟩ }

set_option maxRecDepth 100000 in
/-- Witness for the amended C2 at a concrete request that returns one match. -/
theorem c2_bbox_fields_witness :
    0 ≤ c2wMatch.boundingBox.x ∧ c2wMatch.boundingBox.x ≤ 1
    ∧ 0 ≤ c2wMatch.boundingBox.y ∧ c2wMatch.boundingBox.y ≤ 1
    ∧ 0 ≤ c2wMatch.boundingBox.width ∧ c2wMatch.boundingBox.width ≤ 1
    ∧ 0 ≤ c2wMatch.boundingBox.height ∧ c2wMatch.boundingBox.height ≤ 1 :=
  c2_bbox_fields_in_unit_interval 30 30 ⟨0, 0, 2/3, 2/3⟩ { scales := some [1] }
    ⟨fun _ _ x y => if x = 0 ∧ y = 0 then 9/10 else 0, fun _ h w => (h, w)⟩
    (fun _ => 0) c2wResult c2wMatch
    (by with_unfolding_all decide) (by with_unfolding_all decide)

end App
